import Mathlib

/-!
Verification development for the LKND music-jobs repository.

Shallow embedding of the pipeline implemented in `src/main.py` (the
`MusicJobsBot` class: job normalization, id generation, categorization,
user filters, deduplicating insertion, statistics aggregation, message
chunking), of the SQLite ingestion in `src/process/clean.py`
(`insert_many` with full-text indexing), and of the id assignment of the
collectors in `src/collect/musically.py` and `src/collect/doors_open.py`.

Python strings are modelled as Lean `String` values; `str.lower` is
modelled with `Char.toLower` (they agree on ASCII, which covers all
taxonomy keywords and filter tokens used here); Python's substring test
`needle in hay` is modelled by `strContains`; Python dicts that the code
uses as string-keyed maps are modelled as association lists in insertion
order (the code only ever inserts a key it has checked to be absent, so
keys stay unique).  Ambient effects (`datetime.now`) are threaded as
explicit parameters.
-/

/-- Models Python `str.lower` (faithful on ASCII input). -/
def lower (s : String) : String := String.mk (s.data.map Char.toLower)

/-- Models Python's substring test `needle in hay`. -/
def strContains (hay needle : String) : Bool :=
  hay.data.tails.any (fun suf => needle.data.isPrefixOf suf)

/-- Models Python string slicing `s[:n]`. -/
def strTake (s : String) (n : Nat) : String := String.mk (s.data.take n)

/-- `Job` dataclass from `src/main.py` (`found_date` is set by
`__post_init__` from `datetime.now()`; we keep it as an explicit field). -/
structure Job where
  id : String
  title : String
  company : String
  location : String
  url : String
  description : String := ""
  salary : Option String := none
  job_type : Option String := none
  posted_date : Option String := none
  source : String := ""
  found_date : String := ""
  tags : List String := []
deriving DecidableEq, Repr

/-- `self.job_categories` from `MusicJobsBot.__init__` (static taxonomy). -/
def job_categories : List (String × List String) :=
  [("Production", ["producer", "engineer", "mixing", "mastering", "studio", "recording"]),
   ("Performance", ["musician", "artist", "performer", "dj", "singer", "band"]),
   ("Business", ["manager", "agent", "marketing", "promotion", "label", "a&r"]),
   ("Technical", ["developer", "programmer", "tech", "software", "streaming"]),
   ("Creative", ["composer", "songwriter", "arranger", "sound design"]),
   ("Education", ["teacher", "instructor", "professor", "tutor"]),
   ("Live Events", ["tour", "venue", "festival", "concert", "production"]),
   ("Media", ["journalist", "writer", "editor", "content", "social media"])]

/-- `MusicJobsBot.categorize_job`: matches every category whose keyword
list has a member occurring in `lower (title ++ " " ++ description)`;
`categories or ['Other']` maps an empty result to `["Other"]`. -/
def categorize_job (job : Job) : List String :=
  let text := lower (job.title ++ " " ++ job.description)
  let categories :=
    (job_categories.filter (fun p => p.2.any (fun kw => strContains text kw))).map
      (fun p => p.1)
  if categories = [] then ["Other"] else categories

/-- `config['user_filters']` (the `min_salary` entry is never read by
`filter_jobs` and is omitted). -/
structure UserFilters where
  keywords : List String
  excluded_keywords : List String
  locations : List String
  job_types : List String
deriving DecidableEq, Repr

/-- `job_text` built at the top of the loop of `MusicJobsBot.filter_jobs`. -/
def jobText (job : Job) : String :=
  lower (job.title ++ " " ++ job.company ++ " " ++ job.description)

/-- Stage 1 of `filter_jobs`: keyword inclusion (`continue` iff the list is
non-empty and no keyword matches). -/
def keywordStagePasses (f : UserFilters) (job : Job) : Bool :=
  if f.keywords.isEmpty then true
  else f.keywords.any (fun kw => strContains (jobText job) (lower kw))

/-- Stage 2 of `filter_jobs`: keyword exclusion. -/
def excludeStagePasses (f : UserFilters) (job : Job) : Bool :=
  if f.excluded_keywords.isEmpty then true
  else !(f.excluded_keywords.any (fun kw => strContains (jobText job) (lower kw)))

/-- Stage 3 of `filter_jobs`: location (`continue` iff no configured
location substring-matches and the literal token `"remote"` is not a
member of the configured list). -/
def locationStagePasses (f : UserFilters) (job : Job) : Bool :=
  if f.locations.isEmpty then true
  else
    let location_match :=
      f.locations.any (fun loc => strContains (lower job.location) (lower loc))
    if !location_match && !(f.locations.contains "remote") then false else true

/-- Stage 4 of `filter_jobs`: job type (a record with `job_type = None`
contributes `False` to every disjunct). -/
def typeStagePasses (f : UserFilters) (job : Job) : Bool :=
  if f.job_types.isEmpty then true
  else
    f.job_types.any (fun jt =>
      match job.job_type with
      | some t => strContains (lower t) (lower jt)
      | none => false)

/-- A job survives the loop body of `filter_jobs` iff no stage hits
`continue`. -/
def passes_filters (f : UserFilters) (job : Job) : Bool :=
  keywordStagePasses f job && excludeStagePasses f job &&
    locationStagePasses f job && typeStagePasses f job

/-- `MusicJobsBot.filter_jobs`. -/
def filter_jobs (f : UserFilters) (jobs : List Job) : List Job :=
  jobs.filter (passes_filters f)

/-- Bump a Python-dict counter: `m[k] = m.get(k, 0) + 1` (association list
in insertion order, one entry per key). -/
def bump (m : List (String × Nat)) (k : String) : List (String × Nat) :=
  match m with
  | [] => [(k, 1)]
  | (k', v) :: rest => if k' = k then (k', v + 1) :: rest else (k', v) :: bump rest k

/-- One value of `stats['daily_stats']`. -/
structure DailyStat where
  jobs_found : Nat
  sources : List (String × Nat)
deriving DecidableEq, Repr

/-- The `self.stats` dictionary of `MusicJobsBot` (counter part). -/
structure Stats where
  total_searches : Nat
  total_jobs_found : Nat
  jobs_by_category : List (String × Nat)
  jobs_by_location : List (String × Nat)
  jobs_by_company : List (String × Nat)
  daily_stats : List (String × DailyStat)
deriving DecidableEq, Repr

/-- First-match lookup in an association list (Python dict read). -/
def dbLookup (db : List (String × Job)) (i : String) : Option Job :=
  match db with
  | [] => none
  | (k, v) :: rest => if k = i then some v else dbLookup rest i

/-- Lookup in `daily_stats`. -/
def dailyLookup (m : List (String × DailyStat)) (k : String) : Option DailyStat :=
  match m with
  | [] => none
  | (k', v) :: rest => if k' = k then some v else dailyLookup rest k

/-- Replace the value at the first occurrence of a key. -/
def dailyUpdate (m : List (String × DailyStat)) (k : String) (f : DailyStat → DailyStat) :
    List (String × DailyStat) :=
  match m with
  | [] => []
  | (k', v) :: rest => if k' = k then (k', f v) :: rest else (k', v) :: dailyUpdate rest k f

/-- Python `job.location.split(',')[0].strip()`. -/
def locationKey (loc : String) : String :=
  (String.mk (loc.data.takeWhile (fun c => c ≠ ','))).trim

/-- `MusicJobsBot.update_statistics`; `today` stands for
`datetime.now().strftime('%Y-%m-%d')`. -/
def update_statistics (stats : Stats) (today : String) (job : Job) : Stats :=
  let s1 := { stats with total_jobs_found := stats.total_jobs_found + 1 }
  let s2 := { s1 with jobs_by_category := job.tags.foldl bump s1.jobs_by_category }
  let s3 := { s2 with jobs_by_location := bump s2.jobs_by_location (locationKey job.location) }
  let s4 := { s3 with jobs_by_company := bump s3.jobs_by_company job.company }
  let d0 := if (dailyLookup s4.daily_stats today).isSome then s4.daily_stats
            else s4.daily_stats ++ [(today, ⟨0, []⟩)]
  let d1 := dailyUpdate d0 today
    (fun d => ⟨d.jobs_found + 1, bump d.sources job.source⟩)
  { s4 with daily_stats := d1 }

/-- `MusicJobsBot.find_new_jobs`: walks the scraped list in order; a job
whose id is absent from `jobs_db['jobs']` is stored (dict insertion at the
end), appended to `new_jobs`, and `update_statistics` runs for it; a job
whose id is present is skipped entirely. -/
def find_new_jobs (db : List (String × Job)) (stats : Stats) (today : String) :
    List Job → List (String × Job) × Stats × List Job
  | [] => (db, stats, [])
  | j :: rest =>
    if (dbLookup db j.id).isSome then find_new_jobs db stats today rest
    else
      let db2 := db ++ [(j.id, j)]
      let stats2 := update_statistics stats today j
      let r := find_new_jobs db2 stats2 today rest
      (r.1, r.2.1, j :: r.2.2)

/-- Persistent state of `MusicJobsBot` relevant to one cycle. -/
structure BotState where
  jobs_db : List (String × Job)
  stats : Stats
deriving DecidableEq, Repr

/-- Pure core of `MusicJobsBot.run_scheduled_search`: the scraped list
(result of `scrape_all_sites`) is passed in; the cycle bumps
`total_searches`, applies the user filters, and only then runs the
deduplicating insertion `find_new_jobs`; it returns the new state together
with the list of newly inserted jobs (which drives notification). -/
def run_scheduled_search (cfg : UserFilters) (today : String) (st : BotState)
    (scraped : List Job) : BotState × List Job :=
  let stats1 := { st.stats with total_searches := st.stats.total_searches + 1 }
  let filtered := filter_jobs cfg scraped
  let r := find_new_jobs st.jobs_db stats1 today filtered
  (⟨r.1, r.2.1⟩, r.2.2)

/-- Fuel-driven worker for `chunkList`: each step with `0 < M` consumes at
least one element, so fuel `l.length` suffices; the structural recursion
on the fuel keeps the function kernel-reducible. -/
def chunkListAux {α : Type} (fuel M : Nat) (l : List α) : List (List α) :=
  match fuel with
  | 0 => []
  | f + 1 => if l.isEmpty ∨ M = 0 then [] else l.take M :: chunkListAux f M (l.drop M)

/-- Chunks of size `M` of a list, in order: models the Python
comprehension `[message[i:i+M] for i in range(0, len(message), M)]`.
(`M = 0` would make `range` raise in Python; we return `[]` there, and
every statement below assumes `0 < M`.) -/
def chunkList {α : Type} (M : Nat) (l : List α) : List (List α) :=
  chunkListAux l.length M l

/-- The chunking performed by `MusicJobsBot.send_telegram_notification`
with the channel limit `M` (`max_length = 4000` at the call site): a
message longer than `M` is sliced into `M`-sized parts, anything else is
sent as a single message. -/
def splitMessage (msg : String) (M : Nat) : List String :=
  if msg.length > M then (chunkList M msg.data).map String.mk else [msg]

/-- In-order concatenation of the chunks. -/
def joinStrings (parts : List String) : String :=
  String.mk (parts.map String.data).flatten

/-! ### Byte-level hashing

`generate_job_id` calls `hashlib.md5` and the collectors call
`hashlib.sha256`; both algorithms (RFC 1321 / FIPS 180-4) are implemented
here over `Nat` with explicit `% 2^32` arithmetic, and strings are
encoded as UTF-8 byte lists exactly as Python's `str.encode()` does. -/

/-- UTF-8 encoding of one scalar value. -/
def charUtf8 (c : Char) : List Nat :=
  let n := c.toNat
  if n < 128 then [n]
  else if n < 2048 then [192 + n / 64, 128 + n % 64]
  else if n < 65536 then [224 + n / 4096, 128 + n / 64 % 64, 128 + n % 64]
  else [240 + n / 262144, 128 + n / 4096 % 64, 128 + n / 64 % 64, 128 + n % 64]

/-- Python `s.encode()` (UTF-8). -/
def utf8Bytes (s : String) : List Nat := (s.data.map charUtf8).flatten

/-- Left rotation of a 32-bit word. -/
def rotl32 (x s : Nat) : Nat := ((x <<< s) ||| (x >>> (32 - s))) % 4294967296

/-- Right rotation of a 32-bit word. -/
def rotr32 (x s : Nat) : Nat := ((x >>> s) ||| (x <<< (32 - s))) % 4294967296

/-- Little-endian 8-byte serialization of `x mod 2^64`. -/
def le64Bytes (x : Nat) : List Nat :=
  [x % 256, x / 256 % 256, x / 65536 % 256, x / 16777216 % 256,
   x / 4294967296 % 256, x / 1099511627776 % 256,
   x / 281474976710656 % 256, x / 72057594037927936 % 256]

/-- Big-endian 8-byte serialization of `x mod 2^64`. -/
def be64Bytes (x : Nat) : List Nat := (le64Bytes x).reverse

/-- Little-endian 4-byte serialization of a 32-bit word. -/
def le4Bytes (w : Nat) : List Nat := [w % 256, w / 256 % 256, w / 65536 % 256, w / 16777216 % 256]

/-- Big-endian 4-byte serialization of a 32-bit word. -/
def be4Bytes (w : Nat) : List Nat := [w / 16777216 % 256, w / 65536 % 256, w / 256 % 256, w % 256]

/-- 32-bit word from 4 little-endian bytes. -/
def leWord (bs : List Nat) : Nat :=
  match bs with
  | [b0, b1, b2, b3] => b0 + 256 * b1 + 65536 * b2 + 16777216 * b3
  | _ => 0

/-- 32-bit word from 4 big-endian bytes. -/
def beWord (bs : List Nat) : Nat :=
  match bs with
  | [b0, b1, b2, b3] => 16777216 * b0 + 65536 * b1 + 256 * b2 + b3
  | _ => 0

/-- MD5/SHA padding: `128`, zeros to 56 mod 64, then the 64-bit bit
length (little-endian for MD5). -/
def md5Pad (msg : List Nat) : List Nat :=
  let l := msg.length
  let k := (120 - ((l + 1) % 64)) % 64
  msg ++ [128] ++ List.replicate k 0 ++ le64Bytes (l * 8)

/-- SHA-256 padding (big-endian length). -/
def shaPad (msg : List Nat) : List Nat :=
  let l := msg.length
  let k := (120 - ((l + 1) % 64)) % 64
  msg ++ [128] ++ List.replicate k 0 ++ be64Bytes (l * 8)

/-- The 64 MD5 sine-derived constants. -/
def md5K : List Nat :=
  [3614090360, 3905402710, 606105819, 3250441966,
   4118548399, 1200080426, 2821735955, 4249261313,
   1770035416, 2336552879, 4294925233, 2304563134,
   1804603682, 4254626195, 2792965006, 1236535329,
   4129170786, 3225465664, 643717713, 3921069994,
   3593408605, 38016083, 3634488961, 3889429448,
   568446438, 3275163606, 4107603335, 1163531501,
   2850285829, 4243563512, 1735328473, 2368359562,
   4294588738, 2272392833, 1839030562, 4259657740,
   2763975236, 1272893353, 4139469664, 3200236656,
   681279174, 3936430074, 3572445317, 76029189,
   3654602809, 3873151461, 530742520, 3299628645,
   4096336452, 1126891415, 2878612391, 4237533241,
   1700485571, 2399980690, 4293915773, 2240044497,
   1873313359, 4264355552, 2734768916, 1309151649,
   4149444226, 3174756917, 718787259, 3951481745]

/-- The MD5 per-round shift amounts. -/
def md5S : List Nat :=
  [7, 12, 17, 22, 7, 12, 17, 22, 7, 12, 17, 22, 7, 12, 17, 22,
   5, 9, 14, 20, 5, 9, 14, 20, 5, 9, 14, 20, 5, 9, 14, 20,
   4, 11, 16, 23, 4, 11, 16, 23, 4, 11, 16, 23, 4, 11, 16, 23,
   6, 10, 15, 21, 6, 10, 15, 21, 6, 10, 15, 21, 6, 10, 15, 21]

/-- MD5 round function (per quarter). -/
def md5F (b c d i : Nat) : Nat :=
  if i < 16 then (b &&& c) ||| ((b ^^^ 4294967295) &&& d)
  else if i < 32 then (d &&& b) ||| ((d ^^^ 4294967295) &&& c)
  else if i < 48 then b ^^^ c ^^^ d
  else c ^^^ (b ||| (d ^^^ 4294967295))

/-- MD5 message-word index per round. -/
def md5G (i : Nat) : Nat :=
  if i < 16 then i
  else if i < 32 then (5 * i + 1) % 16
  else if i < 48 then (3 * i + 5) % 16
  else (7 * i) % 16

/-- One MD5 round on the state `(a, b, c, d)`. -/
def md5Step (M : List Nat) (st : Nat × Nat × Nat × Nat) (i : Nat) : Nat × Nat × Nat × Nat :=
  let f := (md5F st.2.1 st.2.2.1 st.2.2.2 i + st.1 + md5K.getD i 0 +
            M.getD (md5G i) 0) % 4294967296
  (st.2.2.2, (st.2.1 + rotl32 f (md5S.getD i 0)) % 4294967296, st.2.1, st.2.2.1)

/-- MD5 compression of one 64-byte block. -/
def md5Compress (st : Nat × Nat × Nat × Nat) (block : List Nat) : Nat × Nat × Nat × Nat :=
  let M := (chunkList 4 block).map leWord
  let r := (List.range 64).foldl (md5Step M) st
  ((st.1 + r.1) % 4294967296, (st.2.1 + r.2.1) % 4294967296,
   (st.2.2.1 + r.2.2.1) % 4294967296, (st.2.2.2 + r.2.2.2) % 4294967296)

/-- MD5 digest (16 bytes) of a byte list. -/
def md5Bytes (msg : List Nat) : List Nat :=
  let st := (chunkList 64 (md5Pad msg)).foldl md5Compress
    (1732584193, 4023233417, 2562383102, 271733878)
  le4Bytes st.1 ++ le4Bytes st.2.1 ++ le4Bytes st.2.2.1 ++ le4Bytes st.2.2.2

/-- Lowercase hex digit for a nibble. -/
def hexDigit (n : Nat) : Char :=
  if n < 10 then Char.ofNat (48 + n) else Char.ofNat (87 + n)

/-- Two lowercase hex digits of a byte. -/
def byteHex (b : Nat) : List Char := [hexDigit (b / 16 % 16), hexDigit (b % 16)]

/-- Python's `hexdigest()`: lowercase hex of a byte list. -/
def bytesHex (bs : List Nat) : String := String.mk (bs.map byteHex).flatten

/-- `hashlib.md5(s.encode()).hexdigest()`. -/
def md5hex (s : String) : String := bytesHex (md5Bytes (utf8Bytes s))

/-- The 64 SHA-256 round constants. -/
def shaK : List Nat :=
  [1116352408, 1899447441, 3049323471, 3921009573, 961987163, 1508970993, 2453635748, 2870763221,
   3624381080, 310598401, 607225278, 1426881987, 1925078388, 2162078206, 2614888103, 3248222580,
   3835390401, 4022224774, 264347078, 604807628, 770255983, 1249150122, 1555081692, 1996064986,
   2554220882, 2821834349, 2952996808, 3210313671, 3336571891, 3584528711, 113926993, 338241895,
   666307205, 773529912, 1294757372, 1396182291, 1695183700, 1986661051, 2177026350, 2456956037,
   2730485921, 2820302411, 3259730800, 3345764771, 3516065817, 3600352804, 4094571909, 275423344,
   430227734, 506948616, 659060556, 883997877, 958139571, 1322822218, 1537002063, 1747873779,
   1955562222, 2024104815, 2227730452, 2361852424, 2428436474, 2756734187, 3204031479, 3329325298]

/-- SHA-256 working state. -/
structure Sha8 where
  a : Nat
  b : Nat
  c : Nat
  d : Nat
  e : Nat
  f : Nat
  g : Nat
  h : Nat
deriving DecidableEq, Repr

/-- Message-schedule small sigma functions. -/
def shaSigma0 (x : Nat) : Nat := rotr32 x 7 ^^^ rotr32 x 18 ^^^ (x >>> 3)

/-- Message-schedule small sigma functions. -/
def shaSigma1 (x : Nat) : Nat := rotr32 x 17 ^^^ rotr32 x 19 ^^^ (x >>> 10)

/-- Extend the 16 block words to the 64-word schedule. -/
def shaExtend (w0 : List Nat) : List Nat :=
  (List.range 48).foldl (fun w _ =>
    let n := w.length
    w ++ [(w.getD (n - 16) 0 + shaSigma0 (w.getD (n - 15) 0) + w.getD (n - 7) 0 +
           shaSigma1 (w.getD (n - 2) 0)) % 4294967296]) w0

/-- One SHA-256 round. -/
def shaStep (w : List Nat) (st : Sha8) (i : Nat) : Sha8 :=
  let S1 := rotr32 st.e 6 ^^^ rotr32 st.e 11 ^^^ rotr32 st.e 25
  let ch := (st.e &&& st.f) ^^^ ((st.e ^^^ 4294967295) &&& st.g)
  let temp1 := (st.h + S1 + ch + shaK.getD i 0 + w.getD i 0) % 4294967296
  let S0 := rotr32 st.a 2 ^^^ rotr32 st.a 13 ^^^ rotr32 st.a 22
  let maj := (st.a &&& st.b) ^^^ (st.a &&& st.c) ^^^ (st.b &&& st.c)
  let temp2 := (S0 + maj) % 4294967296
  ⟨(temp1 + temp2) % 4294967296, st.a, st.b, st.c,
   (st.d + temp1) % 4294967296, st.e, st.f, st.g⟩

/-- SHA-256 compression of one 64-byte block. -/
def shaCompress (st : Sha8) (block : List Nat) : Sha8 :=
  let w := shaExtend ((chunkList 4 block).map beWord)
  let r := (List.range 64).foldl (shaStep w) st
  ⟨(st.a + r.a) % 4294967296, (st.b + r.b) % 4294967296, (st.c + r.c) % 4294967296,
   (st.d + r.d) % 4294967296, (st.e + r.e) % 4294967296, (st.f + r.f) % 4294967296,
   (st.g + r.g) % 4294967296, (st.h + r.h) % 4294967296⟩

/-- SHA-256 digest (32 bytes) of a byte list. -/
def sha256Bytes (msg : List Nat) : List Nat :=
  let st := (chunkList 64 (shaPad msg)).foldl shaCompress
    ⟨1779033703, 3144134277, 1013904242, 2773480762,
     1359893119, 2600822924, 528734635, 1541459225⟩
  be4Bytes st.a ++ be4Bytes st.b ++ be4Bytes st.c ++ be4Bytes st.d ++
    be4Bytes st.e ++ be4Bytes st.f ++ be4Bytes st.g ++ be4Bytes st.h

/-- `hashlib.sha256(s.encode()).hexdigest()`. -/
def sha256hex (s : String) : String := bytesHex (sha256Bytes (utf8Bytes s))

/-- `MusicJobsBot.generate_job_id`:
`hashlib.md5(f"{title.lower()}{company.lower()}{url}".encode()).hexdigest()[:16]`. -/
def generate_job_id (title company url : String) : String :=
  strTake (md5hex (lower title ++ lower company ++ url)) 16

/-- The `Job` value built by `MusicJobsBot.scrape_generic` at the point
its id is assigned (line 290): the id is computed from title, company and
url only, before the later enrichment of `description`, `salary` and
`tags` (which never touches `id`). -/
def make_scraped_job (title company location url source foundDate : String) : Job :=
  { id := generate_job_id title company url, title := title, company := company,
    location := location, url := url, source := source, found_date := foundDate }

/-- `_hash` of `src/collect/musically.py`:
`hashlib.sha256(url.encode()).hexdigest()[:16]`, and the collector's id
`f"musically-{_hash(e.link)}"`. -/
def musically_job_id (url : String) : String :=
  "musically-" ++ strTake (sha256hex url) 16

/-- `_hash` of `src/collect/doors_open.py` on
`f"{title}|{company}|{city}".lower()`, and the collector's id
`f"door-{_hash(title, company, city)}"`. -/
def doors_job_id (title company city : String) : String :=
  "door-" ++ strTake (sha256hex (lower (title ++ "|" ++ company ++ "|" ++ city))) 16

/-! ### SQLite ingestion of `src/process/clean.py`

The `jobs` table (unique `job_id` primary key) is a list of rows in
insertion order; rowids are 1-based positions.  The external-content
full-text index `jobs_fts` is a list of `(rowid, description)` pairs.
The REAL column `score` is modelled as `Nat` (no claim reads it).  An
`sqlite3.IntegrityError` raised inside the per-record `try` is caught by
`except sqlite3.IntegrityError: pass`; for the `jobs` INSERT it is the
duplicate-id signal, and for the `jobs_fts` INSERT its occurrence is an
environment event modelled by the oracle `ftsFails`. -/

/-- One raw record from `raw_jobs.json` (a JSON object whose keys may be
missing, hence `Option` fields). -/
structure RawRow where
  job_id : Option String
  title : Option String
  company : Option String
  country : Option String
  city : Option String
  contract : Option String
  posted_date : Option String
  source : Option String
  url : Option String
  description : Option String
  score : Option Nat
deriving DecidableEq, Repr

/-- `MANDATORY.issubset(r)`. -/
def mandatoryPresent (r : RawRow) : Bool :=
  r.job_id.isSome && r.title.isSome && r.company.isSome && r.city.isSome &&
    r.posted_date.isSome && r.source.isSome && r.url.isSome && r.description.isSome

/-- One row of the `jobs` table. -/
structure JobRow where
  job_id : String
  title : String
  company : String
  country : String
  city : String
  contract : String
  posted_date : String
  source : String
  url : String
  description : String
  score : Nat
deriving DecidableEq, Repr

/-- The tuple bound by the `INSERT INTO jobs` statement (`r.get` supplies
the defaults for the optional columns). -/
def mkRow (r : RawRow) : JobRow :=
  { job_id := r.job_id.getD "", title := r.title.getD "", company := r.company.getD "",
    country := r.country.getD "", city := r.city.getD "", contract := r.contract.getD "",
    posted_date := r.posted_date.getD "", source := r.source.getD "",
    url := r.url.getD "", description := r.description.getD "", score := r.score.getD 0 }

/-- State of `jobs.db`. -/
structure SqliteDB where
  jobs : List JobRow
  fts : List (Nat × String)
deriving DecidableEq, Repr

/-- Whether a `job_id` is already present (the PRIMARY KEY constraint). -/
def hasJobId (db : SqliteDB) (i : String) : Bool :=
  db.jobs.any (fun row => row.job_id = i)

/-- `insert_many` of `src/process/clean.py`.  Per record: skip when a
mandatory key is missing; the `jobs` INSERT raises `IntegrityError` on a
duplicate `job_id` (caught, record skipped); otherwise the row is
appended, and the `jobs_fts` INSERT either fails with `IntegrityError`
(oracle `ftsFails` — caught by the same `except ... : pass`, leaving the
`jobs` row in place and the record out of `new_rows`) or records
`(last_insert_rowid(), description)`, after which the record joins
`new_rows`. -/
def insert_many (ftsFails : String → Bool) (db : SqliteDB) :
    List RawRow → SqliteDB × List RawRow
  | [] => (db, [])
  | r :: rest =>
    if !(mandatoryPresent r) then insert_many ftsFails db rest
    else if hasJobId db (r.job_id.getD "") then insert_many ftsFails db rest
    else
      let row := mkRow r
      let db1 : SqliteDB := ⟨db.jobs ++ [row], db.fts⟩
      let rowid := db1.jobs.length
      if ftsFails row.job_id then insert_many ftsFails db1 rest
      else
        let db2 : SqliteDB := ⟨db1.jobs, db1.fts ++ [(rowid, row.description)]⟩
        let res := insert_many ftsFails db2 rest
        (res.1, r :: res.2)

/-- Sum of the values of a Python dict counter (e.g. the total of
`stats['jobs_by_category']`). -/
def sumVals (m : List (String × Nat)) : Nat := (m.map (fun p => p.2)).sum

/-- An all-zero statistics state (fresh `statistics.json`). -/
def statsZero : Stats := ⟨0, 0, [], [], [], []⟩

/-- Concrete fixture: a record as first observed. -/
def jobFirst : Job :=
  { id := "k1", title := "T", company := "C", location := "L", url := "u",
    found_date := "d0" }

/-- Concrete fixture: the same posting re-fetched later (same id, later
`found_date`). -/
def jobSecond : Job :=
  { id := "k1", title := "T", company := "C", location := "L", url := "u",
    found_date := "d9" }

/-- Concrete fixture: a freshly scraped record that matches no
"producer" keyword anywhere. -/
def jobTour : Job :=
  { id := "x9", title := "Tour Manager", company := "EMI",
    location := "Berlin", url := "http://x/9" }

/-- Concrete fixture: a complete raw record for the SQLite ingestion. -/
def rawDoor : RawRow :=
  { job_id := some "door-1", title := some "Mixing Engineer",
    company := some "Acme", country := none, city := some "London",
    contract := none, posted_date := some "2025-01-01",
    source := some "Doors Open", url := some "http://x/1",
    description := some "desc", score := none }

/-! ### String helper lemmas -/

theorem lower_append (s t : String) : lower (s ++ t) = lower s ++ lower t :=
  congrArg String.mk (List.map_append _ _ _)

theorem strContains_iff {hay needle : String} :
    strContains hay needle = true ↔ needle.data <:+: hay.data := by
  constructor
  · intro h
    simp only [strContains, List.any_eq_true] at h
    obtain ⟨suf, hmem, hpre⟩ := h
    exact List.infix_iff_prefix_suffix.mpr
      ⟨suf, List.isPrefixOf_iff_prefix.mp hpre, (List.mem_tails _ _).mp hmem⟩
  · intro h
    obtain ⟨t, hpre, hsuf⟩ := List.infix_iff_prefix_suffix.mp h
    simp only [strContains, List.any_eq_true]
    exact ⟨t, (List.mem_tails _ _).mpr hsuf, List.isPrefixOf_iff_prefix.mpr hpre⟩

theorem infix_append_right {α : Type} {needle a : List α} (b : List α)
    (h : needle <:+: a) : needle <:+: a ++ b := by
  obtain ⟨s, t, rfl⟩ := h
  exact ⟨s, t ++ b, by simp⟩

theorem infix_append_left {α : Type} {needle b : List α} (a : List α)
    (h : needle <:+: b) : needle <:+: a ++ b := by
  obtain ⟨s, t, rfl⟩ := h
  exact ⟨a ++ s, t, by simp⟩

/-- A needle that does not contain the separator character cannot be a
prefix of `a ++ sep :: b` beyond `a`. -/
theorem prefix_of_append_sep {sep : Char} {needle a b : List Char}
    (hn : ¬ sep ∈ needle) (h : needle <+: a ++ sep :: b) : needle <+: a := by
  induction a generalizing needle with
  | nil =>
    cases needle with
    | nil => exact List.nil_prefix
    | cons c cs =>
      rw [List.nil_append, List.cons_prefix_cons] at h
      exact absurd (h.1 ▸ List.mem_cons_self c cs) hn
  | cons x a ih =>
    cases needle with
    | nil => exact List.nil_prefix
    | cons c cs =>
      rw [List.cons_append, List.cons_prefix_cons] at h
      rw [List.cons_prefix_cons]
      exact ⟨h.1, ih (fun hm => hn (List.mem_cons_of_mem _ hm)) h.2⟩

/-- A needle that does not contain the separator lies on one side of it. -/
theorem infix_split_sep {sep : Char} {needle a b : List Char}
    (hn : ¬ sep ∈ needle) (h : needle <:+: a ++ sep :: b) :
    needle <:+: a ∨ needle <:+: b := by
  induction a with
  | nil =>
    rw [List.nil_append, List.infix_cons_iff] at h
    cases h with
    | inl hp =>
      cases needle with
      | nil => exact Or.inl List.nil_infix
      | cons c cs =>
        rw [List.cons_prefix_cons] at hp
        exact absurd (hp.1 ▸ List.mem_cons_self c cs) hn
    | inr hs => exact Or.inr hs
  | cons x a ih =>
    rw [List.cons_append, List.infix_cons_iff] at h
    cases h with
    | inl hp =>
      exact Or.inl (prefix_of_append_sep hn hp).isInfix
    | inr hi =>
      cases ih hi with
      | inl h1 => exact Or.inl (List.infix_cons h1)
      | inr h2 => exact Or.inr h2

/-- Substring containment in `a ++ " " ++ b` for a space-free needle
splits to the two sides (the shape Python's `kw in job_text` takes for
the space-joined `job_text`). -/
theorem data_space_append (a b : String) :
    (a ++ " " ++ b).data = a.data ++ ' ' :: b.data := by
  show (a.data ++ [' ']) ++ b.data = a.data ++ ' ' :: b.data
  simp

/-- Substring containment in `a ++ " " ++ b` for a space-free needle
splits to the two sides (the shape Python's `kw in job_text` takes for
the space-joined `job_text`). -/
theorem strContains_space_append {a b needle : String}
    (hn : ¬ (' ' ∈ needle.data)) :
    strContains (a ++ " " ++ b) needle = true ↔
      strContains a needle = true ∨ strContains b needle = true := by
  rw [strContains_iff, strContains_iff, strContains_iff, data_space_append]
  constructor
  · intro h
    exact infix_split_sep hn h
  · intro h
    cases h with
    | inl h1 =>
      have h2 : needle.data <:+: a.data ++ [' '] := infix_append_right _ h1
      have h3 : needle.data <:+: (a.data ++ [' ']) ++ b.data := infix_append_right _ h2
      simpa using h3
    | inr h2 =>
      have h3 : needle.data <:+: ' ' :: b.data := List.infix_cons h2
      exact infix_append_left _ h3

/-! ### Claim theorems -/

/-- C6: for every record and every filter configuration whose location
list contains the token `"remote"`, the record passes the location stage
of the filter regardless of whether any configured location
substring-matches the record's location. -/
theorem remote_bypass (f : UserFilters) (job : Job)
    (h : f.locations.contains "remote" = true) :
    locationStagePasses f job = true := by
  unfold locationStagePasses
  by_cases he : f.locations.isEmpty
  · rw [List.isEmpty_iff] at he
    rw [he] at h
    simp at h
  · simp only [he, if_false, Bool.if_false_left]
    simp at h
    simp [h]

/-- C6 witness: with `locations = ["remote"]`, a record located in Berlin
passes the location stage. -/
theorem remote_bypass_witness :
    (UserFilters.mk [] [] ["remote"] []).locations.contains "remote" = true ∧
      locationStagePasses (UserFilters.mk [] [] ["remote"] [])
        { id := "j1", title := "Tour Manager", company := "Acme",
          location := "Berlin", url := "http://x/1" } = true :=
  ⟨by decide, remote_bypass _ _ (by decide)⟩

/-- C10: the keyword inclusion and exclusion stages match against the
company name as well as title and description: a record passes stage 1
whenever some configured keyword occurs case-insensitively in the
space-joined concatenation of title, company and description (the code's
`job_text`), and is excluded at stage 2 — and hence overall — whenever
some excluded keyword occurs in that same concatenation. -/
theorem filter_matches_company (f : UserFilters) (job : Job) :
    ((∃ kw ∈ f.keywords, strContains (jobText job) (lower kw) = true) →
       keywordStagePasses f job = true) ∧
    ((∃ kw ∈ f.excluded_keywords, strContains (jobText job) (lower kw) = true) →
       excludeStagePasses f job = false ∧ passes_filters f job = false) := by
  constructor
  · rintro ⟨kw, hmem, hocc⟩
    have hne := List.ne_nil_of_mem hmem
    unfold keywordStagePasses
    rw [if_neg (by simp [List.isEmpty_iff, hne])]
    rw [List.any_eq_true]
    exact ⟨kw, hmem, hocc⟩
  · rintro ⟨kw, hmem, hocc⟩
    have hne := List.ne_nil_of_mem hmem
    have hx : excludeStagePasses f job = false := by
      unfold excludeStagePasses
      rw [if_neg (by simp [List.isEmpty_iff, hne])]
      simp only [Bool.not_eq_false']
      rw [List.any_eq_true]
      exact ⟨kw, hmem, hocc⟩
    refine ⟨hx, ?_⟩
    unfold passes_filters
    simp [hx]

/-- C10 witness: with `keywords = ["producer"]` a record whose company
(not title, not description) contains "producer" passes stage 1; with
`excluded_keywords = ["intern"]` a record whose company contains "intern"
is excluded overall. -/
theorem filter_matches_company_witness :
    keywordStagePasses (UserFilters.mk ["producer"] [] [] [])
      { id := "a", title := "Tour Manager", company := "Producers Guild",
        location := "Berlin", url := "http://x/1" } = true ∧
    passes_filters (UserFilters.mk [] ["intern"] [] [])
      { id := "b", title := "Tour Manager", company := "Internal Audio",
        location := "Berlin", url := "http://x/2" } = false :=
  ⟨(filter_matches_company (UserFilters.mk ["producer"] [] [] [])
      { id := "a", title := "Tour Manager", company := "Producers Guild",
        location := "Berlin", url := "http://x/1" }).1
      ⟨"producer", by decide, by decide⟩,
   ((filter_matches_company (UserFilters.mk [] ["intern"] [] [])
      { id := "b", title := "Tour Manager", company := "Internal Audio",
        location := "Berlin", url := "http://x/2" }).2
      ⟨"intern", by decide, by decide⟩).2⟩

/-- Occurrence of a space-free needle in `job_text` is occurrence in one
of the three lowered segments (title, company, description). -/
theorem jobText_contains_iff (job : Job) (needle : String)
    (hn : ¬ ' ' ∈ needle.data) :
    strContains (jobText job) needle = true ↔
      strContains (lower job.title) needle = true ∨
        strContains (lower job.company) needle = true ∨
        strContains (lower job.description) needle = true := by
  have hsp : lower " " = " " := by decide
  have h1 : jobText job =
      (lower job.title ++ " " ++ lower job.company) ++ " " ++ lower job.description := by
    unfold jobText
    simp only [lower_append, hsp]
  rw [h1, strContains_space_append hn, strContains_space_append hn, or_assoc]

/-- C5 counterexample: for the record with title `"ultrasound"` and
description `"designer"`, no taxonomy keyword occurs in the title and
none occurs in the description, yet `categorize_job` returns
`["Creative"]` rather than `["Other"]` (the keyword `"sound design"`
matches across the space that joins the two fields in the searched
text). -/
theorem categorize_boundary_cex :
    (job_categories.map (fun p => p.2)).flatten.all
        (fun kw => !strContains (lower "ultrasound") kw &&
          !strContains (lower "designer") kw) = true ∧
      categorize_job { id := "x", title := "ultrasound", company := "A",
                       location := "L", url := "u", description := "designer" } =
        ["Creative"] := by
  constructor
  · decide
  · decide

/-- C5 (amended): every record receives a non-empty tag list; if no
taxonomy keyword occurs in the lowered space-joined concatenation of
title and description (the text the code searches), the result is exactly
`["Other"]`; and a record may carry several category tags. -/
theorem categorize_exhaustive :
    (∀ job : Job, categorize_job job ≠ []) ∧
      (∀ job : Job,
        (∀ p ∈ job_categories, ∀ kw ∈ p.2,
          strContains (lower (job.title ++ " " ++ job.description)) kw = false) →
        categorize_job job = ["Other"]) ∧
      2 ≤ (categorize_job { id := "m", title := "Producer and DJ", company := "A",
                            location := "L", url := "u" }).length := by
  refine ⟨?_, ?_, by decide⟩
  · intro job
    unfold categorize_job
    by_cases h : (job_categories.filter (fun p => p.2.any
        (fun kw => strContains (lower (job.title ++ " " ++ job.description)) kw))).map
        (fun p => p.1) = []
    · simp [h]
    · simp only [h, if_neg]
      simp [h]
  · intro job h
    unfold categorize_job
    have hf : job_categories.filter (fun p => p.2.any
        (fun kw => strContains (lower (job.title ++ " " ++ job.description)) kw)) = [] := by
      rw [List.filter_eq_nil_iff]
      intro p hp
      rw [Bool.not_eq_true, ← Bool.not_eq_true']
      rw [Bool.not_eq_true', List.any_eq_false]
      intro kw hkw
      simp [h p hp kw hkw]
    simp [hf]

/-- C5 witness: a record with no keyword anywhere is tagged exactly
`["Other"]`. -/
theorem categorize_exhaustive_witness :
    categorize_job { id := "o", title := "Accountant", company := "A",
                     location := "L", url := "u" } = ["Other"] :=
  categorize_exhaustive.2.1 _ (by decide)

/-- C7 counterexample: with `keywords = ["producer"]`, the record titled
`"Tour Manager"` at company `"Producers Guild"` with empty description
has no keyword match in its description, yet it passes stage 1 and the
whole filter, because `job_text` also contains the company name. -/
theorem keyword_stage_company_cex :
    strContains (lower "") (lower "producer") = false ∧
      keywordStagePasses (UserFilters.mk ["producer"] [] [] [])
        { id := "c", title := "Tour Manager", company := "Producers Guild",
          location := "Berlin", url := "http://x/1", description := "" } = true ∧
      passes_filters (UserFilters.mk ["producer"] [] [] [])
        { id := "c", title := "Tour Manager", company := "Producers Guild",
          location := "Berlin", url := "http://x/1", description := "" } = true := by
  refine ⟨by decide, by decide, by decide⟩

/-- C7 (amended): with `keywords = ["producer"]`, every record titled
`"Audio Producer"` passes stage 1, and every record titled
`"Tour Manager"` whose company and description contain no occurrence of
`"producer"` fails stage 1 and is excluded overall. -/
theorem keyword_stage_concrete (job : Job) :
    (job.title = "Audio Producer" →
      keywordStagePasses (UserFilters.mk ["producer"] [] [] []) job = true) ∧
      (job.title = "Tour Manager" →
        strContains (lower job.company) "producer" = false →
        strContains (lower job.description) "producer" = false →
        keywordStagePasses (UserFilters.mk ["producer"] [] [] []) job = false ∧
          passes_filters (UserFilters.mk ["producer"] [] [] []) job = false) := by
  have hlp : lower "producer" = "producer" := by decide
  have hstage : keywordStagePasses (UserFilters.mk ["producer"] [] [] []) job =
      strContains (jobText job) "producer" := by
    unfold keywordStagePasses
    simp [hlp]
  constructor
  · intro ht
    rw [hstage, jobText_contains_iff job "producer" (by decide)]
    exact Or.inl (by rw [ht]; decide)
  · intro ht hc hd
    have hs : keywordStagePasses (UserFilters.mk ["producer"] [] [] []) job = false := by
      rw [hstage]
      rw [← Bool.not_eq_true]
      rw [jobText_contains_iff job "producer" (by decide)]
      rintro (h1 | h2 | h3)
      · rw [ht] at h1
        exact absurd h1 (by decide)
      · rw [hc] at h2
        exact Bool.false_ne_true h2
      · rw [hd] at h3
        exact Bool.false_ne_true h3
    refine ⟨hs, ?_⟩
    unfold passes_filters
    rw [hs]
    rfl

/-- C7 witness: the amended claim at two concrete records. -/
theorem keyword_stage_concrete_witness :
    keywordStagePasses (UserFilters.mk ["producer"] [] [] [])
      { id := "a", title := "Audio Producer", company := "Acme",
        location := "Berlin", url := "http://x/1" } = true ∧
      passes_filters (UserFilters.mk ["producer"] [] [] [])
        { id := "b", title := "Tour Manager", company := "EMI",
          location := "Berlin", url := "http://x/2",
          description := "Organise tours" } = false :=
  ⟨(keyword_stage_concrete _).1 rfl,
   ((keyword_stage_concrete _).2 rfl (by decide) (by decide)).2⟩

/-! ### Store and statistics lemmas -/

theorem dbLookup_append (a b : List (String × Job)) (i : String) :
    dbLookup (a ++ b) i =
      match dbLookup a i with
      | some v => some v
      | none => dbLookup b i := by
  induction a with
  | nil => rfl
  | cons p rest ih =>
    obtain ⟨k, v⟩ := p
    by_cases h : k = i
    · simp [dbLookup, h]
    · simp [dbLookup, h, ih]

theorem dbLookup_none_filter (db : List (String × Job)) (i : String)
    (h : dbLookup db i = none) : db.filter (fun p => p.1 == i) = [] := by
  induction db with
  | nil => rfl
  | cons p rest ih =>
    obtain ⟨k, v⟩ := p
    by_cases hk : k = i
    · simp [dbLookup, hk] at h
    · simp only [dbLookup, if_neg hk] at h
      simp [List.filter_cons, hk, ih h]

theorem sumVals_bump (m : List (String × Nat)) (k : String) :
    sumVals (bump m k) = sumVals m + 1 := by
  induction m with
  | nil => rfl
  | cons p rest ih =>
    obtain ⟨k', v⟩ := p
    by_cases h : k' = k
    · simp only [bump, if_pos h, sumVals, List.map_cons, List.sum_cons]
      omega
    · simp only [bump, if_neg h, sumVals, List.map_cons, List.sum_cons] at ih ⊢
      omega

theorem sumVals_foldl_bump (tags : List String) (m : List (String × Nat)) :
    sumVals (tags.foldl bump m) = sumVals m + tags.length := by
  induction tags generalizing m with
  | nil => simp
  | cons t ts ih =>
    simp only [List.foldl_cons, ih, sumVals_bump, List.length_cons]
    omega

theorem update_statistics_total (stats : Stats) (today : String) (job : Job) :
    (update_statistics stats today job).total_jobs_found =
      stats.total_jobs_found + 1 := rfl

theorem update_statistics_cat (stats : Stats) (today : String) (job : Job) :
    sumVals (update_statistics stats today job).jobs_by_category =
      sumVals stats.jobs_by_category + job.tags.length := by
  unfold update_statistics
  exact sumVals_foldl_bump _ _

/-- C1: insertion is idempotent per id.  First conjunct: inserting a
record whose id is already stored leaves the store, the statistics and
the new-jobs list unchanged (in particular, `found_date` of the stored
record is never mutated).  Second conjunct: inserting a fresh record and
then, in a second cycle, re-inserting a record with the same id leaves
exactly one stored record for that id, and it is the first record, so
its `found_date` is the value set at the first insertion. -/
theorem insert_idempotent_per_id :
    (∀ (db : List (String × Job)) (stats : Stats) (today : String) (r : Job),
      (dbLookup db r.id).isSome = true →
      find_new_jobs db stats today [r] = (db, stats, [])) ∧
    (∀ (db : List (String × Job)) (stats stats2 : Stats) (today t2 : String) (r r' : Job),
      r'.id = r.id → dbLookup db r.id = none →
      (find_new_jobs (find_new_jobs db stats today [r]).1 stats2 t2 [r']).1 =
          (find_new_jobs db stats today [r]).1 ∧
        dbLookup (find_new_jobs (find_new_jobs db stats today [r]).1 stats2 t2 [r']).1 r.id =
          some r ∧
        ((find_new_jobs (find_new_jobs db stats today [r]).1 stats2 t2 [r']).1.filter
          (fun p => p.1 == r.id)).length = 1 ∧
        (dbLookup (find_new_jobs (find_new_jobs db stats today [r]).1 stats2 t2 [r']).1
          r.id).map Job.found_date = some r.found_date) := by
  have hskip : ∀ (db : List (String × Job)) (stats : Stats) (today : String) (r : Job),
      (dbLookup db r.id).isSome = true →
      find_new_jobs db stats today [r] = (db, stats, []) := by
    intro db stats today r h
    simp [find_new_jobs, h]
  refine ⟨hskip, ?_⟩
  intro db stats stats2 today t2 r r' hid hnone
  have hc1 : (find_new_jobs db stats today [r]).1 = db ++ [(r.id, r)] := by
    simp [find_new_jobs, hnone]
  have hlook : dbLookup (db ++ [(r.id, r)]) r.id = some r := by
    rw [dbLookup_append, hnone]
    simp [dbLookup]
  have hsome : (dbLookup (db ++ [(r.id, r)]) r'.id).isSome = true := by
    rw [hid, hlook]
    rfl
  have hc2 : (find_new_jobs (find_new_jobs db stats today [r]).1 stats2 t2 [r']).1 =
      db ++ [(r.id, r)] := by
    rw [hc1, hskip _ _ _ _ hsome]
  refine ⟨by rw [hc2, hc1], by rw [hc2]; exact hlook, ?_, by rw [hc2, hlook]; rfl⟩
  rw [hc2, List.filter_append, dbLookup_none_filter db r.id hnone]
  simp

/-- C1 witness: the two conjuncts at concrete stores and records. -/
theorem insert_idempotent_per_id_witness :
    find_new_jobs [("k1", jobFirst)] statsZero "2025-01-02" [jobSecond] =
        ([("k1", jobFirst)], statsZero, []) ∧
      (dbLookup (find_new_jobs
          (find_new_jobs [] statsZero "2025-01-01" [jobFirst]).1
          statsZero "2025-01-02" [jobSecond]).1 "k1").map Job.found_date =
        some "d0" :=
  ⟨insert_idempotent_per_id.1 _ _ _ _ (by decide),
   (insert_idempotent_per_id.2 [] statsZero statsZero "2025-01-01" "2025-01-02"
      jobFirst jobSecond rfl rfl).2.2.2⟩

/-- C9: the statistics update runs exactly once per newly inserted record
and never for an already-known one: starting from any counter state,
after a `find_new_jobs` pass that inserts `N` new records (the length of
the returned new-jobs list), `total_jobs_found` grows by exactly `N`, and
the sum of the per-category counters grows by at least `N` (each inserted
record carries at least one tag, and a multi-tagged record increments
several category counters). -/
theorem aggregation_consistency (db : List (String × Job)) (stats : Stats)
    (today : String) (jobs : List Job) (h : ∀ j ∈ jobs, j.tags ≠ []) :
    (find_new_jobs db stats today jobs).2.1.total_jobs_found =
        stats.total_jobs_found + (find_new_jobs db stats today jobs).2.2.length ∧
      sumVals stats.jobs_by_category + (find_new_jobs db stats today jobs).2.2.length ≤
        sumVals (find_new_jobs db stats today jobs).2.1.jobs_by_category := by
  induction jobs generalizing db stats with
  | nil => simp [find_new_jobs]
  | cons j rest ih =>
    have htail : ∀ x ∈ rest, x.tags ≠ [] := fun x hx => h x (List.mem_cons_of_mem _ hx)
    by_cases hj : (dbLookup db j.id).isSome
    · simp only [find_new_jobs, hj, if_pos]
      exact ih db stats htail
    · rw [Bool.not_eq_true] at hj
      simp only [find_new_jobs, hj, Bool.false_eq_true, if_false, List.length_cons]
      have ihr := ih (db ++ [(j.id, j)]) (update_statistics stats today j) htail
      have htag : 1 ≤ j.tags.length := by
        have := h j (List.mem_cons_self j rest)
        cases hjt : j.tags with
        | nil => exact absurd hjt this
        | cons a l => simp
      refine ⟨?_, ?_⟩
      · rw [ihr.1, update_statistics_total]
        omega
      · have h2 := ihr.2
        rw [update_statistics_cat] at h2
        omega

/-- C9 witness: one fresh record with two tags — total grows by 1, the
category-count sum grows by 2 ≥ 1. -/
theorem aggregation_consistency_witness :
    (find_new_jobs [] statsZero "2025-01-01"
        [{ jobFirst with tags := ["Production", "Creative"] }]).2.1.total_jobs_found =
        statsZero.total_jobs_found +
          (find_new_jobs [] statsZero "2025-01-01"
            [{ jobFirst with tags := ["Production", "Creative"] }]).2.2.length ∧
      sumVals statsZero.jobs_by_category +
          (find_new_jobs [] statsZero "2025-01-01"
            [{ jobFirst with tags := ["Production", "Creative"] }]).2.2.length ≤
        sumVals (find_new_jobs [] statsZero "2025-01-01"
          [{ jobFirst with tags := ["Production", "Creative"] }]).2.1.jobs_by_category :=
  aggregation_consistency [] statsZero "2025-01-01"
    [{ jobFirst with tags := ["Production", "Creative"] }] (by decide)

theorem find_new_jobs_preserves_none (jobs : List Job) (db : List (String × Job))
    (stats : Stats) (today : String) (i : String)
    (hdb : dbLookup db i = none) (hjobs : ∀ j ∈ jobs, j.id ≠ i) :
    dbLookup (find_new_jobs db stats today jobs).1 i = none := by
  induction jobs generalizing db stats with
  | nil => exact hdb
  | cons j rest ih =>
    have htail : ∀ x ∈ rest, x.id ≠ i := fun x hx => hjobs x (List.mem_cons_of_mem _ hx)
    by_cases hj : (dbLookup db j.id).isSome
    · simp only [find_new_jobs, hj, if_pos]
      exact ih db stats hdb htail
    · rw [Bool.not_eq_true] at hj
      simp only [find_new_jobs, hj, Bool.false_eq_true, if_false]
      refine ih _ _ ?_ htail
      rw [dbLookup_append, hdb]
      have : j.id ≠ i := hjobs j (List.mem_cons_self j rest)
      simp [dbLookup, this]

theorem find_new_jobs_new_mem (jobs : List Job) (db : List (String × Job))
    (stats : Stats) (today : String) (j : Job)
    (h : j ∈ (find_new_jobs db stats today jobs).2.2) : j ∈ jobs := by
  induction jobs generalizing db stats with
  | nil => simp [find_new_jobs] at h
  | cons x rest ih =>
    by_cases hx : (dbLookup db x.id).isSome
    · simp only [find_new_jobs, hx, if_pos] at h
      exact List.mem_cons_of_mem _ (ih db stats h)
    · rw [Bool.not_eq_true] at hx
      simp only [find_new_jobs, hx, Bool.false_eq_true, if_false, List.mem_cons] at h
      cases h with
      | inl he => exact he ▸ List.mem_cons_self x rest
      | inr hr => exact List.mem_cons_of_mem _ (ih _ _ hr)

/-- C2 counterexample: in `run_scheduled_search` the user filters run
BEFORE the dedup gate.  With `keywords = ["producer"]` and an empty
store, the freshly scraped record `jobTour` (which fails the filter) is
never handed to `find_new_jobs`: after the cycle the store still has no
entry for its id and nothing was inserted — under the claimed order
(dedup before filtering) this new normalized record would have reached
the gate and been stored. -/
theorem filter_precedes_dedup_cex :
    passes_filters (UserFilters.mk ["producer"] [] [] []) jobTour = false ∧
      dbLookup (run_scheduled_search (UserFilters.mk ["producer"] [] [] [])
        "2025-01-01" ⟨[], statsZero⟩ [jobTour]).1.jobs_db "x9" = none ∧
      (run_scheduled_search (UserFilters.mk ["producer"] [] [] [])
        "2025-01-01" ⟨[], statsZero⟩ [jobTour]).1.jobs_db = [] := by
  refine ⟨by decide, by decide, by decide⟩

/-- C2 (amended): the cycle's stages execute in the order Fetching,
Filtering, Deduplicating (with classification already attached at scrape
time and aggregation inside the dedup pass), Notifying — so only records
that pass the user filters reach the dedup gate: an id carried only by
filter-failing records is never inserted, and every record the dedup
stage reports as new passed the filters. -/
theorem filter_precedes_dedup (cfg : UserFilters) (today : String) (st : BotState)
    (scraped : List Job) (i : String)
    (hdb : dbLookup st.jobs_db i = none)
    (hfail : ∀ j ∈ scraped, j.id = i → passes_filters cfg j = false) :
    dbLookup (run_scheduled_search cfg today st scraped).1.jobs_db i = none ∧
      ∀ j ∈ (run_scheduled_search cfg today st scraped).2,
        passes_filters cfg j = true := by
  constructor
  · refine find_new_jobs_preserves_none _ _ _ _ _ hdb ?_
    intro j hj hji
    have hmem := List.mem_filter.mp hj
    rw [hfail j hmem.1 hji] at hmem
    exact Bool.false_ne_true hmem.2
  · intro j hj
    have hjf := find_new_jobs_new_mem _ _ _ _ _ hj
    exact (List.mem_filter.mp hjf).2

/-- C2 witness: the amended claim at the concrete cycle of the
counterexample. -/
theorem filter_precedes_dedup_witness :
    dbLookup (run_scheduled_search (UserFilters.mk ["producer"] [] [] [])
        "2025-01-01" ⟨[], statsZero⟩ [jobTour]).1.jobs_db "x9" = none ∧
      ∀ j ∈ (run_scheduled_search (UserFilters.mk ["producer"] [] [] [])
        "2025-01-01" ⟨[], statsZero⟩ [jobTour]).2,
        passes_filters (UserFilters.mk ["producer"] [] [] []) j = true :=
  filter_precedes_dedup (UserFilters.mk ["producer"] [] [] []) "2025-01-01"
    ⟨[], statsZero⟩ [jobTour] "x9" rfl (by decide)

/-! ### Chunking lemmas -/

theorem chunkListAux_flatten {α : Type} (M : Nat) (hM : 0 < M) :
    ∀ (fuel : Nat) (l : List α), l.length ≤ fuel →
      (chunkListAux fuel M l).flatten = l := by
  intro fuel
  induction fuel with
  | zero =>
    intro l hl
    have h0 : l = [] := List.eq_nil_of_length_eq_zero (Nat.le_zero.mp hl)
    simp [chunkListAux, h0]
  | succ f ih =>
    intro l hl
    show (if l.isEmpty ∨ M = 0 then []
      else l.take M :: chunkListAux f M (l.drop M)).flatten = l
    by_cases h : l.isEmpty ∨ M = 0
    · rcases h with h1 | h1
      · rw [List.isEmpty_iff] at h1
        simp [h1]
      · omega
    · rw [if_neg h]
      have hl2 : (l.drop M).length ≤ f := by
        rw [List.length_drop]
        omega
      rw [List.flatten_cons, ih (l.drop M) hl2, List.take_append_drop]

theorem chunkList_flatten {α : Type} (M : Nat) (hM : 0 < M) (l : List α) :
    (chunkList M l).flatten = l :=
  chunkListAux_flatten M hM l.length l le_rfl

theorem chunkListAux_mem_length {α : Type} (M : Nat) :
    ∀ (fuel : Nat) (l c : List α), c ∈ chunkListAux fuel M l → c.length ≤ M := by
  intro fuel
  induction fuel with
  | zero =>
    intro l c hc
    simp [chunkListAux] at hc
  | succ f ih =>
    intro l c hc
    replace hc : c ∈ (if l.isEmpty ∨ M = 0 then []
        else l.take M :: chunkListAux f M (l.drop M)) := hc
    by_cases h : l.isEmpty ∨ M = 0
    · rw [if_pos h] at hc
      simp at hc
    · rw [if_neg h] at hc
      rcases List.mem_cons.mp hc with rfl | hmem
      · rw [List.length_take]
        exact min_le_left _ _
      · exact ih _ _ hmem

theorem chunkList_mem_length {α : Type} (M : Nat) (l : List α) (c : List α)
    (hc : c ∈ chunkList M l) : c.length ≤ M :=
  chunkListAux_mem_length M l.length l c hc

theorem chunkListAux_count {α : Type} (M : Nat) (hM : 0 < M) :
    ∀ (fuel : Nat) (l : List α), l.length ≤ fuel →
      (chunkListAux fuel M l).length = (l.length + M - 1) / M := by
  intro fuel
  induction fuel with
  | zero =>
    intro l hl
    have h0 : l = [] := List.eq_nil_of_length_eq_zero (Nat.le_zero.mp hl)
    subst h0
    show (0 : Nat) = (0 + M - 1) / M
    rw [Nat.zero_add]
    exact (Nat.div_eq_of_lt (by omega)).symm
  | succ f ih =>
    intro l hl
    show (if l.isEmpty ∨ M = 0 then []
      else l.take M :: chunkListAux f M (l.drop M)).length = (l.length + M - 1) / M
    by_cases h : l.isEmpty ∨ M = 0
    · rcases h with h1 | h1
      · rw [List.isEmpty_iff] at h1
        subst h1
        have hcond : (([] : List α).isEmpty = true ∨ M = 0) := Or.inl rfl
        rw [if_pos hcond]
        show (0 : Nat) = (0 + M - 1) / M
        rw [Nat.zero_add]
        exact (Nat.div_eq_of_lt (by omega)).symm
      · omega
    · rw [if_neg h]
      have hl0 : l ≠ [] := fun he => h (Or.inl (by simp [he]))
      have h0 : 0 < l.length := List.length_pos.mpr hl0
      have hd : (l.drop M).length ≤ f := by
        rw [List.length_drop]
        omega
      rw [List.length_cons, ih _ hd, List.length_drop]
      by_cases hcmp : l.length ≤ M
      · have hd0 : l.length - M = 0 := by omega
        rw [hd0]
        have hn1 : (0 + M - 1) / M = 0 := Nat.div_eq_of_lt (by omega)
        have hn2 : (l.length + M - 1) / M = 1 := by
          apply Nat.div_eq_of_lt_le
          · omega
          · omega
        omega
      · have hstep : l.length - M + M - 1 = (l.length - M - 1) + M := by omega
        have hstep2 : l.length + M - 1 = (l.length - 1) + M := by omega
        have hstep3 : l.length - M - 1 + M = l.length - 1 := by omega
        rw [hstep, Nat.add_div_right _ hM, hstep2, Nat.add_div_right _ hM, ← hstep3,
          Nat.add_div_right _ hM]

theorem chunkList_count {α : Type} (M : Nat) (hM : 0 < M) (l : List α) :
    (chunkList M l).length = (l.length + M - 1) / M :=
  chunkListAux_count M hM l.length l le_rfl

/-- C8 counterexample: the empty text is delivered as a single (empty)
chunk, but `ceil(L/M) = ceil(0/4000) = 0`, so the claimed chunk count is
wrong at `L = 0`. -/
theorem chunking_empty_cex :
    (splitMessage "" 4000).length = 1 ∧
      (("" : String).length + 4000 - 1) / 4000 = 0 := ⟨by decide, by decide⟩

/-- C8 (amended): for every NON-EMPTY message text of length `L` and
channel limit `M > 0`, delivery splits the text into exactly
`ceil(L/M) = (L + M - 1) / M` ordered chunks, each of length at most `M`,
whose in-order concatenation equals the original text (an empty text is
sent as one empty chunk instead of zero chunks). -/
theorem chunking_round_trip (msg : String) (M : Nat) (hM : 0 < M) (hne : msg ≠ "") :
    (splitMessage msg M).length = (msg.length + M - 1) / M ∧
      (∀ p ∈ splitMessage msg M, p.length ≤ M) ∧
      joinStrings (splitMessage msg M) = msg := by
  have hdata : msg.data ≠ [] := by
    intro hd
    apply hne
    cases msg with
    | mk d =>
      cases hd
      rfl
  have hpos : 0 < msg.length := List.length_pos.mpr hdata
  unfold splitMessage
  by_cases h : msg.length > M
  · rw [if_pos h]
    refine ⟨?_, ?_, ?_⟩
    · rw [List.length_map]
      exact chunkList_count M hM msg.data
    · intro p hp
      obtain ⟨c, hc, rfl⟩ := List.mem_map.mp hp
      exact chunkList_mem_length M msg.data c hc
    · unfold joinStrings
      rw [List.map_map]
      have hid : (chunkList M msg.data).map (String.data ∘ String.mk) =
          chunkList M msg.data := by
        show (chunkList M msg.data).map (fun x => x) = chunkList M msg.data
        exact List.map_id' _
      rw [hid, chunkList_flatten M hM]
  · rw [if_neg h]
    refine ⟨?_, ?_, ?_⟩
    · have : (msg.length + M - 1) / M = 1 := by
        apply Nat.div_eq_of_lt_le
        · omega
        · omega
      simp [this]
    · intro p hp
      rcases List.mem_singleton.mp hp with rfl
      omega
    · show joinStrings [msg] = msg
      cases msg with
      | mk d =>
        show String.mk (([String.mk d].map String.data).flatten) = String.mk d
        rw [List.map_cons, List.map_nil, List.flatten_cons, List.flatten_nil,
          List.append_nil]

/-- C8 witness: the amended claim at `msg = "abcde"`, `M = 2`:
three chunks `["ab", "cd", "e"]`. -/
theorem chunking_round_trip_witness :
    (splitMessage "abcde" 2).length = (("abcde" : String).length + 2 - 1) / 2 ∧
      (∀ p ∈ splitMessage "abcde" 2, p.length ≤ 2) ∧
      joinStrings (splitMessage "abcde" 2) = "abcde" :=
  chunking_round_trip "abcde" 2 (by decide) (by decide)

/-! ### Id-generation lemmas -/

theorem hexDigit_mem (n : Nat) (h : n < 16) :
    hexDigit n ∈ ("0123456789abcdef" : String).data := by
  interval_cases n <;> decide

theorem byteHex_mem (b : Nat) (c : Char) (hc : c ∈ byteHex b) :
    c ∈ ("0123456789abcdef" : String).data := by
  rcases List.mem_cons.mp hc with rfl | hc2
  · exact hexDigit_mem _ (Nat.mod_lt _ (by omega))
  · rcases List.mem_singleton.mp hc2 with rfl
    exact hexDigit_mem _ (Nat.mod_lt _ (by omega))

theorem bytesHex_length (bs : List Nat) : (bytesHex bs).length = 2 * bs.length := by
  induction bs with
  | nil => rfl
  | cons b rest ih =>
    show ((b :: rest).map byteHex).flatten.length = 2 * (b :: rest).length
    rw [List.map_cons, List.flatten_cons, List.length_append]
    have h2 : (byteHex b).length = 2 := rfl
    have ihl : ((rest.map byteHex).flatten).length = 2 * rest.length := ih
    rw [h2, ihl, List.length_cons]
    omega

theorem bytesHex_mem (bs : List Nat) (c : Char) (hc : c ∈ (bytesHex bs).data) :
    c ∈ ("0123456789abcdef" : String).data := by
  have hm : c ∈ (bs.map byteHex).flatten := hc
  obtain ⟨l, hl, hcl⟩ := List.mem_flatten.mp hm
  obtain ⟨b, _, rfl⟩ := List.mem_map.mp hl
  exact byteHex_mem b c hcl

theorem md5Bytes_length (msg : List Nat) : (md5Bytes msg).length = 16 := by
  simp [md5Bytes, le4Bytes]

theorem md5hex_length (s : String) : (md5hex s).length = 32 := by
  show (bytesHex (md5Bytes (utf8Bytes s))).length = 32
  rw [bytesHex_length, md5Bytes_length]

theorem generate_job_id_length (t c u : String) : (generate_job_id t c u).length = 16 := by
  show (List.take 16 (md5hex (lower t ++ lower c ++ u)).data).length = 16
  rw [List.length_take]
  have h32 : (md5hex (lower t ++ lower c ++ u)).data.length = 32 :=
    md5hex_length (lower t ++ lower c ++ u)
  rw [h32]
  decide

set_option maxRecDepth 8000 in
/-- C3 counterexample: two raw records carrying the same title, company
and url receive DIFFERENT ids depending on the adapter: the Music Ally
collector prefixes `musically-` and hashes only the url with SHA-256,
the Doors Open collector prefixes `door-` and hashes title|company|city,
and `main.py` itself uses a bare truncated MD5 — so the claim's
"same id no matter which adapter" fails across the repository's
adapters. -/
theorem adapter_id_mismatch_cex :
    musically_job_id "http://x/1" ≠ doors_job_id "Mixing Engineer" "Acme" "London" ∧
      generate_job_id "Mixing Engineer" "Acme" "http://x/1" ≠
        musically_job_id "http://x/1" := ⟨by decide, by decide⟩

/-- C3 (amended): within the `main.py` pipeline the id is
`md5(lowercase(title) + lowercase(company) + url)` truncated to a
16-character lowercase-hex string, computed identically by every adapter
of that pipeline — it depends on neither `source` nor the scrape day
(`found_date`), so two records with the same title, company and url get
the same id there.  The standalone collectors in `src/collect/`, however,
derive ids differently (source-prefixed SHA-256 of adapter-specific
fields), so their ids never coincide across adapters. -/
theorem job_id_content_digest :
    (∀ t c loc1 loc2 u s1 s2 d1 d2 : String,
       (make_scraped_job t c loc1 u s1 d1).id = (make_scraped_job t c loc2 u s2 d2).id) ∧
      (∀ t c u : String, (generate_job_id t c u).length = 16) ∧
      (∀ t c u : String, ∀ ch ∈ (generate_job_id t c u).data,
        ch ∈ ("0123456789abcdef" : String).data) ∧
      (∀ u t c city : String, musically_job_id u ≠ doors_job_id t c city) := by
  refine ⟨fun t c l1 l2 u s1 s2 d1 d2 => rfl, generate_job_id_length, ?_, ?_⟩
  · intro t c u ch hch
    have hm : ch ∈ (md5hex (lower t ++ lower c ++ u)).data := List.mem_of_mem_take hch
    exact bytesHex_mem _ _ hm
  · intro u t c city h
    have h1 : (musically_job_id u).data.head? = some 'm' := rfl
    have h2 : (doors_job_id t c city).data.head? = some 'd' := rfl
    rw [h, h2] at h1
    simp at h1

/-- C3 witness: the inner bounded-quantifier hypotheses of the amended
claim discharged at a concrete record: the id of a scraped record is a
16-character string whose first character is a hex digit, and the two
collector ids of the counterexample record differ. -/
theorem job_id_content_digest_witness :
    (make_scraped_job "Mixing Engineer" "Acme" "London" "http://x/1" "A" "d1").id =
        (make_scraped_job "Mixing Engineer" "Acme" "Berlin" "http://x/1" "B" "d2").id ∧
      (generate_job_id "Mixing Engineer" "Acme" "http://x/1").length = 16 :=
  ⟨job_id_content_digest.1 "Mixing Engineer" "Acme" "London" "Berlin" "http://x/1"
    "A" "B" "d1" "d2",
   job_id_content_digest.2.1 "Mixing Engineer" "Acme" "http://x/1"⟩

/-- C4 counterexample: with an empty database, inserting the complete raw
record `rawDoor` while the `jobs_fts` INSERT raises `IntegrityError`
(oracle constantly true) leaves the record committed in the `jobs` table,
absent from the full-text index, and missing from `new_rows` — the row
insertion is NOT rolled back, so a committed-but-unsearchable state is
reachable. -/
theorem fts_failure_not_rolled_back_cex :
    hasJobId (insert_many (fun _ => true) ⟨[], []⟩ [rawDoor]).1 "door-1" = true ∧
      (insert_many (fun _ => true) ⟨[], []⟩ [rawDoor]).1.fts = [] ∧
      (insert_many (fun _ => true) ⟨[], []⟩ [rawDoor]).2 = [] :=
  ⟨by decide, by decide, by decide⟩

/-- C4 (amended): insertion and full-text indexing are NOT atomic per
record: when the full-text-index INSERT of a record fails with
`IntegrityError` after the row insertion succeeded, the
`except sqlite3.IntegrityError: pass` handler swallows the error without
any rollback — the row stays in `jobs`, no `jobs_fts` entry is written
for it, and the record is omitted from the returned `new_rows`, so a
record can be committed in the store while absent from the full-text
index. -/
theorem fts_failure_not_rolled_back (oracle : String → Bool) (db : SqliteDB)
    (r : RawRow)
    (h1 : mandatoryPresent r = true)
    (h2 : hasJobId db (r.job_id.getD "") = false)
    (h3 : oracle (mkRow r).job_id = true) :
    insert_many oracle db [r] = (⟨db.jobs ++ [mkRow r], db.fts⟩, []) := by
  simp [insert_many, h1, h2, h3]

/-- C4 witness: the amended claim at the concrete record of the
counterexample. -/
theorem fts_failure_not_rolled_back_witness :
    insert_many (fun _ => true) ⟨[], []⟩ [rawDoor] = (⟨[mkRow rawDoor], []⟩, []) :=
  fts_failure_not_rolled_back (fun _ => true) ⟨[], []⟩ rawDoor (by decide) (by decide) rfl
